import Mathlib

/-!
Shallow embedding of the revenue-ledger application (src/App.tsx) and of the
contracts of its external collaborators, with proofs of the testable
properties stated in its specification.

Conventions of the embedding:
* JavaScript numbers that only ever hold integer amounts are modelled as
  `Int` (or `Nat` where the code can only produce non-negative values);
  double-precision rounding above 2^53 is not modelled, which does not
  affect the integrality and sign properties proved here.
* Asynchronous handlers are collapsed to their observable end state;
  `setTimeout` callbacks are modelled as separate state transformers paired
  with the scheduled delay in milliseconds.
* React state hooks become explicit record fields threaded through the
  transition functions.
-/

namespace DoanhThu

/-- Taxpayer information block (`TaxPayerInfo` from types.ts, as used by
App.tsx: five scalar string fields). -/
structure TaxPayerInfo where
  name : String
  address : String
  taxId : String
  location : String
  period : String
deriving DecidableEq, Repr

/-- One ledger row (`Transaction` from types.ts, as used by App.tsx). -/
structure Transaction where
  id : String
  date : String
  description : String
  amount : Int
deriving DecidableEq, Repr

/-- The whole in-memory ledger document (`S1aFormState`). -/
structure S1aFormState where
  info : TaxPayerInfo
  transactions : List Transaction
deriving DecidableEq, Repr

/-- `SAMPLE_DATA` from App.tsx lines 12-24: the default sample document. -/
def SAMPLE_DATA : S1aFormState :=
  { info :=
      { name := "Nguyễn Văn A"
        address := "123 Đường Láng, Hà Nội"
        taxId := "8000123456"
        location := "Cửa hàng Tạp hóa Số 1"
        period := "Tháng 10/2023" }
    transactions :=
      [ { id := "1", date := "01/10/2023", description := "Bán hàng tạp hóa lẻ", amount := 2500000 }
      , { id := "2", date := "02/10/2023", description := "Cung cấp dịch vụ giao hàng", amount := 500000 } ] }

/-- One base-10 accumulation step of `parseInt` on a digit string. -/
def parseStep (n : Nat) (c : Char) : Nat := n * 10 + (c.toNat - 48)

/-- Value of a list of decimal digit characters, read left to right. -/
def parseDigits (l : List Char) : Nat := l.foldl parseStep 0

/-- App.tsx `parseAmountInput` (lines 188-192): drop the dot separators and
every other non-digit character, then `parseInt` the remaining digits in base
10; an empty remainder (`parseInt` returning NaN) is coerced to 0.  The first
`replace` of the source (dots) is subsumed by the second (all non-digits). -/
def parseAmountInput (value : String) : Nat :=
  parseDigits (value.toList.filter Char.isDigit)

/-- The character for decimal digit `d`. -/
def digitChar (d : Nat) : Char := Char.ofNat (48 + d)

/-- Decimal digits, most significant first; structural recursion on a fuel
argument so that the kernel can evaluate it. -/
def natDigitsAux : Nat → Nat → List Nat
  | 0, _ => []
  | fuel + 1, n =>
    if n < 10 then [n]
    else natDigitsAux fuel (n / 10) ++ [n % 10]

/-- Decimal digits of `n`, most significant first. -/
def natDigits (n : Nat) : List Nat := natDigitsAux (n + 1) n

/-- Decimal digit characters of `n`, most significant first. -/
def digitChars (n : Nat) : List Char := (natDigits n).map digitChar

/-- Grouping pass over a reversed digit list: a vi-VN thousands separator is
inserted before every fourth, seventh, ... character from the right. -/
def sepRev : List Char → Nat → List Char
  | [], _ => []
  | c :: cs, 0 => '.' :: c :: sepRev cs 2
  | c :: cs, k + 1 => c :: sepRev cs k

/-- App.tsx `formatAmountInput` (lines 183-186): 0 renders as the empty
string; any other amount renders as its decimal digits grouped in threes with
the vi-VN dot separator, which is what `toLocaleString('vi-VN')` produces for
a non-negative integer. -/
def formatAmountInput (amount : Nat) : String :=
  if amount = 0 then ""
  else String.mk ((sepRev (digitChars amount).reverse 3).reverse)

/-- The mutable fields of a transaction that the application ever passes to
`updateTransaction`: its call sites (App.tsx lines 246, 251, 259 and 108) use
exactly `'date'`, `'description'` and `'amount'`. -/
inductive TransField
  | date
  | description
  | amount
deriving DecidableEq, Repr

/-- The value type carried for each mutable field, matching the values the
call sites supply (strings for date/description, a number for amount). -/
def TransField.valType : TransField → Type
  | .date => String
  | .description => String
  | .amount => Int

/-- The computed-key record update `{ ...t, [field]: value }` of App.tsx
line 100, specialised to the three fields actually used. -/
def setField (t : Transaction) : (f : TransField) → f.valType → Transaction
  | .date, v => { t with date := v }
  | .description, v => { t with description := v }
  | .amount, v => { t with amount := v }

/-- App.tsx `addTransaction` (lines 87-95): append a fresh transaction whose
id is `Date.now().toString()` (passed here as `now`), dated today (passed as
`nowDate`), with empty description and amount 0. -/
def addTransaction (doc : S1aFormState) (now : Nat) (nowDate : String) : S1aFormState :=
  { doc with transactions :=
      doc.transactions ++
        [{ id := toString now, date := nowDate, description := "", amount := 0 }] }

/-- App.tsx `updateTransaction` (lines 97-102): map over the transactions,
rewriting the selected field of every transaction whose id matches. -/
def updateTransaction (doc : S1aFormState) (id : String) (f : TransField) (v : f.valType) :
    S1aFormState :=
  { doc with transactions :=
      doc.transactions.map (fun t => if t.id == id then setField t f v else t) }

/-- App.tsx `removeTransaction` (lines 116-121): keep exactly the
transactions whose id differs. -/
def removeTransaction (doc : S1aFormState) (id : String) : S1aFormState :=
  { doc with transactions := doc.transactions.filter (fun t => t.id != id) }

/-- The structured guess returned by the `parseTransactionFromAudio` service
call: each field may be absent. -/
structure ParseResult where
  date : Option String
  description : Option String
  amount : Option Int
deriving DecidableEq, Repr

/-- JavaScript `a || d` on an optional string: `undefined` and the empty
string are falsy and fall through to the default. -/
def jsOr (v : Option String) (d : String) : String :=
  match v with
  | none => d
  | some s => if s = "" then d else s

/-- JavaScript `a || d` on an optional number: `undefined` and 0 are falsy
and fall through to the default. -/
def jsOrInt (v : Option Int) (d : Int) : Int :=
  match v with
  | none => d
  | some n => if n = 0 then d else n

/-- The transaction built by `handleSmartVoiceAdd` (App.tsx lines 129-134)
from a structured parse result, with `Date.now()` and today's date passed
explicitly. -/
def smartNewTrans (res : ParseResult) (now : Nat) (nowDate : String) : Transaction :=
  { id := toString now
    date := jsOr res.date nowDate
    description := jsOr res.description "Giao dịch mới"
    amount := jsOrInt res.amount 0 }

/-- The ledger mutation performed by `handleSmartVoiceAdd` on a successful
parse (App.tsx line 135): append the built transaction. -/
def handleSmartVoiceAdd (doc : S1aFormState) (res : ParseResult) (now : Nat)
    (nowDate : String) : S1aFormState :=
  { doc with transactions := doc.transactions ++ [smartNewTrans res now nowDate] }

/-- The five keys of `TaxPayerInfo` (the field list of App.tsx lines
213-218). -/
inductive InfoField
  | name
  | address
  | taxId
  | location
  | period
deriving DecidableEq, Repr

/-- The string key of an info field, as used for the `processingField`
state. -/
def infoKey : InfoField → String
  | .name => "name"
  | .address => "address"
  | .taxId => "taxId"
  | .location => "location"
  | .period => "period"

/-- The computed-key record update of App.tsx line 62. -/
def setInfoField (i : TaxPayerInfo) : InfoField → String → TaxPayerInfo
  | .name, v => { i with name := v }
  | .address, v => { i with address := v }
  | .taxId, v => { i with taxId := v }
  | .location, v => { i with location := v }
  | .period, v => { i with period := v }

/-- App.tsx `handleInfoChange` (lines 61-63). -/
def handleInfoChange (doc : S1aFormState) (f : InfoField) (v : String) : S1aFormState :=
  { doc with info := setInfoField doc.info f v }

/-- A ledger mutation event: the three document operations of the Ledger
State Controller, with the ambient clock (`Date.now()` and today's date)
passed explicitly where the code reads it. -/
inductive Event
  | add (now : Nat) (nowDate : String)
  | smartAdd (res : ParseResult) (now : Nat) (nowDate : String)
  | remove (id : String)
  | update (id : String) (f : TransField) (v : f.valType)

/-- Apply one mutation event to the document. -/
def step (doc : S1aFormState) : Event → S1aFormState
  | .add now nowDate => addTransaction doc now nowDate
  | .smartAdd res now nowDate => handleSmartVoiceAdd doc res now nowDate
  | .remove id => removeTransaction doc id
  | .update id f v => updateTransaction doc id f v

/-- Apply a sequence of mutation events, oldest first. -/
def run (doc : S1aFormState) (es : List Event) : S1aFormState := es.foldl step doc

/-- The ids currently present in the document, in display order. -/
def idsOf (doc : S1aFormState) : List String := doc.transactions.map (fun t => t.id)

/-- The ids generated by the add events of a trace, in order. -/
def addedIds : List Event → List String
  | [] => []
  | .add now _ :: es => toString now :: addedIds es
  | .smartAdd _ now _ :: es => toString now :: addedIds es
  | .remove _ :: es => addedIds es
  | .update _ _ _ :: es => addedIds es

/-- A trace is fresh when every add event fires at a clock value whose string
form is not an id already present in the document at that moment (in
particular, no two adds share a millisecond). -/
def freshTrace (doc : S1aFormState) : List Event → Bool
  | [] => true
  | e :: es =>
    (match e with
     | .add now _ => decide (toString now ∉ idsOf doc)
     | .smartAdd _ now _ => decide (toString now ∉ idsOf doc)
     | .remove _ => true
     | .update _ _ _ => true) && freshTrace (step doc e) es

/-- The React state of the App component that the voice-capture and error
paths touch: the document plus the busy/feedback/availability flags. -/
structure AppState where
  data : S1aFormState
  processingField : Option String
  isProcessingAI : Bool
  aiFeedback : Option String
  apiKeyError : Bool
deriving DecidableEq, Repr

/-- The credential-specific notification text of App.tsx line 68. -/
def errCredentialMsg : String := "Lỗi: Chưa có API Key"

/-- The generic connection-failure notification text of App.tsx line 70. -/
def errGenericMsg : String := "Lỗi kết nối AI. Thử lại sau."

/-- App.tsx `handleError` (lines 65-73): classify the failure by its message
(`geminiService` surfaces a missing credential as the message
`API_KEY_MISSING`), set the availability flag only in that case, and schedule
the notification to clear; the second component is the scheduled delay in
milliseconds. -/
def handleError (st : AppState) (msg : String) : AppState × Nat :=
  if msg == "API_KEY_MISSING" then
    ({ st with apiKeyError := true, aiFeedback := some errCredentialMsg }, 3000)
  else
    ({ st with aiFeedback := some errGenericMsg }, 3000)

/-- The `setTimeout` callback of App.tsx line 72: clear the notification. -/
def clearFeedback (st : AppState) : AppState := { st with aiFeedback := none }

/-- A voice-capture target: a taxpayer-info field, the description of an
existing transaction, or the whole-sentence new-transaction capture. -/
inductive CaptureTarget
  | infoField (f : InfoField)
  | transDesc (id : String)
  | newTrans

/-- The payload a finished capture delivers for each kind of target: a
transcribed text or a structured parse, or the error message on failure. -/
def CaptureTarget.payload : CaptureTarget → Type
  | .infoField _ => Except String String
  | .transDesc _ => Except String String
  | .newTrans => Except String ParseResult

/-- Whether a target is currently busy, read off the flags exactly as the
`isProcessing` props of App.tsx lines 230, 252 and 281 do. -/
def isBusy (st : AppState) : CaptureTarget → Bool
  | .infoField f => st.processingField == some (infoKey f)
  | .transDesc id => st.processingField == some ("trans-" ++ id)
  | .newTrans => st.isProcessingAI

/-- App.tsx `handleVoiceForField` (lines 75-85), collapsed to its end state:
a non-empty transcription is written to the info field (an empty string is
falsy and skipped), a failure goes through `handleError`, and the busy flag
is cleared by the `finally` block. -/
def handleVoiceForField (st : AppState) (f : InfoField) (outcome : Except String String) :
    AppState :=
  match outcome with
  | .ok text =>
    let st := if text = "" then st else { st with data := handleInfoChange st.data f text }
    { st with processingField := none }
  | .error e =>
    { (handleError st e).1 with processingField := none }

/-- App.tsx `handleVoiceForTransactionDesc` (lines 104-114), collapsed to its
end state. -/
def handleVoiceForTransactionDesc (st : AppState) (id : String)
    (outcome : Except String String) : AppState :=
  match outcome with
  | .ok text =>
    let st :=
      if text = "" then st
      else { st with data := updateTransaction st.data id TransField.description text }
    { st with processingField := none }
  | .error e =>
    { (handleError st e).1 with processingField := none }

/-- App.tsx `handleSmartVoiceAdd` (lines 123-143), collapsed to its end
state: an empty audio payload returns immediately; a successful parse appends
the built transaction and shows the success notification; a failure goes
through `handleError`; the `finally` block clears the AI-busy flag. -/
def handleSmartVoiceAddFull (st : AppState) (outcome : Except String ParseResult)
    (audio : String) (now : Nat) (nowDate : String) : AppState :=
  if audio = "" then st
  else
    match outcome with
    | .ok res =>
      { st with
        data := handleSmartVoiceAdd st.data res now nowDate
        aiFeedback := some "Đã thêm thành công!"
        isProcessingAI := false }
    | .error e =>
      { (handleError st e).1 with isProcessingAI := false }

/-- Modelled from the spec: the audio-capture component
(components/VoiceInput.tsx, which is not under src/) does not invoke its
capture callback while its `isProcessing` prop is set — "a capture request
for a target that is already busy is rejected (no-op)".  A request on an idle
target dispatches to the matching App.tsx handler. -/
def captureRequest (st : AppState) (tgt : CaptureTarget) (p : tgt.payload)
    (audio : String) (now : Nat) (nowDate : String) : AppState :=
  if isBusy st tgt then st
  else
    match tgt, p with
    | .infoField f, p => handleVoiceForField st f p
    | .transDesc id, p => handleVoiceForTransactionDesc st id p
    | .newTrans, p => handleSmartVoiceAddFull st p audio now nowDate

/-- A fully idle app state over a given document. -/
def idleState (doc : S1aFormState) : AppState :=
  { data := doc
    processingField := none
    isProcessingAI := false
    aiFeedback := none
    apiKeyError := false }

/-- A state whose `name` info field is busy capturing. -/
def busySt : AppState :=
  { idleState SAMPLE_DATA with processingField := some "name" }

/-- One operation issued to the persistence boundary (services/db). -/
inductive DbOp
  | save (doc : S1aFormState)
  | clear
deriving DecidableEq, Repr

/-- The persistence-level system state: the in-memory document, the
`isLoaded` gate of App.tsx line 29, the durable store contents, and the log
of issued DB operations. -/
structure Sys where
  data : S1aFormState
  isLoaded : Bool
  db : Option S1aFormState
  dbLog : List DbOp
deriving DecidableEq, Repr

/-- Startup state: the transient default document, `isLoaded` false, an
arbitrary pre-existing store, nothing issued yet. -/
def initSys (stored : Option S1aFormState) : Sys :=
  { data := SAMPLE_DATA, isLoaded := false, db := stored, dbLog := [] }

/-- Issue `saveToDB d`: last write wins in the store, and the call is
logged. -/
def doSave (s : Sys) (d : S1aFormState) : Sys :=
  { s with db := some d, dbLog := s.dbLog ++ [DbOp.save d] }

/-- A persistence-level occurrence: the startup `loadFromDB` resolving, a
ledger mutation committing, or the confirmed reset running. -/
inductive SysEvent
  | loadResolved
  | mutate (e : Event)
  | reset

/-- One persistence-level transition.
* `loadResolved` (App.tsx lines 36-48): the stored document, when present,
  replaces the in-memory one; `isLoaded` becomes true; the save effect of
  lines 50-53 then fires on the committed state.
* `mutate` (any ledger mutation): the document changes; the save effect
  fires only when `isLoaded` is already true.
* `reset` (App.tsx `handleReset`, lines 55-59): `clearDB()` is awaited, the
  document is replaced by the default sample, and the save effect fires on
  the new state when `isLoaded` is true. -/
def sysStep (s : Sys) : SysEvent → Sys
  | .loadResolved =>
    let d := s.db.getD s.data
    doSave { s with data := d, isLoaded := true } d
  | .mutate e =>
    let s' := { s with data := step s.data e }
    if s.isLoaded then doSave s' s'.data else s'
  | .reset =>
    let s' := { s with db := none, dbLog := s.dbLog ++ [DbOp.clear], data := SAMPLE_DATA }
    if s.isLoaded then doSave s' SAMPLE_DATA else s'

/-- Run a persistence-level trace, oldest first. -/
def runSys (s : Sys) (es : List SysEvent) : Sys := es.foldl sysStep s

/-- The system state after startup load, an arbitrary batch of edits, and a
confirmed reset. -/
def afterReset (stored : Option S1aFormState) (tr : List Event) : Sys :=
  runSys (initSys stored)
    (SysEvent.loadResolved :: (tr.map SysEvent.mutate ++ [SysEvent.reset]))

/-- One exported row of the regulatory layout: date, description, amount as
a plain integer. -/
def renderRow (t : Transaction) : String :=
  t.date ++ "|" ++ t.description ++ "|" ++ toString t.amount

/-- Modelled from the spec: `generateExcelBlob` lives in utils/exportUtils.ts,
which is not under src/.  Per §4.5 it is a pure function of the document — a
header block from `info` with fixed labels followed by one row per
transaction in document order.  The ambient clock and a random seed are
passed explicitly so that independence from them is expressible. -/
def generateExcelBlob (doc : S1aFormState) (_now : Nat) (_rand : Nat) : String :=
  "Họ tên HKD|" ++ doc.info.name ++ "\n" ++
  "Mã số thuế|" ++ doc.info.taxId ++ "\n" ++
  "Địa chỉ|" ++ doc.info.address ++ "\n" ++
  "Địa điểm KD|" ++ doc.info.location ++ "\n" ++
  "Kỳ kê khai|" ++ doc.info.period ++ "\n" ++
  String.intercalate "\n" (doc.transactions.map renderRow)

/-! ### Lemmas about the amount display/parse pair -/

lemma natDigitsAux_irrel : ∀ f₁ f₂ n : Nat, n < f₁ → n < f₂ →
    natDigitsAux f₁ n = natDigitsAux f₂ n := by
  intro f₁
  induction f₁ with
  | zero => intro f₂ n h₁ _; omega
  | succ f ih =>
    intro f₂ n h₁ h₂
    cases f₂ with
    | zero => omega
    | succ g =>
      simp only [natDigitsAux]
      by_cases h : n < 10
      · simp [h]
      · simp only [if_neg h]
        rw [ih g (n / 10) (by omega) (by omega)]

lemma natDigits_eq (n : Nat) :
    natDigits n = if n < 10 then [n] else natDigits (n / 10) ++ [n % 10] := by
  show natDigitsAux (n + 1) n = _
  simp only [natDigitsAux]
  by_cases h : n < 10
  · simp [h]
  · simp only [if_neg h]
    rw [natDigitsAux_irrel n (n / 10 + 1) (n / 10) (by omega) (by omega)]
    rfl

lemma digits_lt (n : Nat) : ∀ d ∈ natDigits n, d < 10 := by
  induction n using Nat.strong_induction_on with
  | _ n ih =>
    rw [natDigits_eq]
    by_cases h : n < 10
    · simp only [if_pos h, List.mem_singleton]
      intro d hd
      omega
    · simp only [if_neg h, List.mem_append, List.mem_singleton]
      intro d hd
      rcases hd with hd | hd
      · exact ih (n / 10) (by omega) d hd
      · omega

lemma digitChar_toNat {d : Nat} (h : d < 10) : (digitChar d).toNat = 48 + d := by
  interval_cases d <;> rfl

lemma digitChar_isDigit {d : Nat} (h : d < 10) : (digitChar d).isDigit = true := by
  interval_cases d <;> rfl

lemma foldl_digitChars (n : Nat) : ∀ a : Nat,
    ((natDigits n).map digitChar).foldl parseStep a
      = a * 10 ^ (natDigits n).length + n := by
  induction n using Nat.strong_induction_on with
  | _ n ih =>
    intro a
    rw [natDigits_eq]
    by_cases h : n < 10
    · simp only [if_pos h, List.map_cons, List.map_nil, List.foldl_cons, List.foldl_nil,
        List.length_cons, List.length_nil, parseStep, digitChar_toNat h]
      rw [pow_one]
      omega
    · simp only [if_neg h, List.map_append, List.foldl_append, List.length_append,
        List.map_cons, List.map_nil, List.foldl_cons, List.foldl_nil,
        List.length_cons, List.length_nil]
      rw [ih (n / 10) (by omega) a]
      simp only [parseStep, digitChar_toNat (Nat.mod_lt n (by omega))]
      have h1 : 48 + n % 10 - 48 = n % 10 := by omega
      have h2 : 10 * (n / 10) + n % 10 = n := by omega
      calc (a * 10 ^ (natDigits (n / 10)).length + n / 10) * 10 + (48 + n % 10 - 48)
          = a * (10 ^ (natDigits (n / 10)).length * 10) + (10 * (n / 10) + n % 10) := by
            rw [h1]; ring
        _ = a * 10 ^ ((natDigits (n / 10)).length + (0 + 1)) + n := by
            rw [h2, Nat.zero_add, pow_succ]

lemma parseDigits_digitChars (n : Nat) : parseDigits (digitChars n) = n := by
  have h := foldl_digitChars n 0
  simpa [parseDigits, digitChars] using h

lemma filter_digitChars (n : Nat) : (digitChars n).filter Char.isDigit = digitChars n := by
  rw [List.filter_eq_self]
  intro c hc
  simp only [digitChars, List.mem_map] at hc
  obtain ⟨d, hd, rfl⟩ := hc
  exact digitChar_isDigit (digits_lt n d hd)

lemma filter_sepRev (l : List Char) : ∀ k,
    (sepRev l k).filter Char.isDigit = l.filter Char.isDigit := by
  induction l with
  | nil => intro k; rfl
  | cons c cs ih =>
    intro k
    cases k with
    | zero =>
      have hdot : Char.isDigit '.' = false := rfl
      simp [sepRev, List.filter_cons, hdot, ih]
    | succ k => simp [sepRev, List.filter_cons, ih]

/-! ### Lemmas about the ledger mutation events -/

lemma run_cons (doc : S1aFormState) (e : Event) (es : List Event) :
    run doc (e :: es) = run (step doc e) es := rfl

lemma idsOf_add (doc : S1aFormState) (now : Nat) (nowDate : String) :
    idsOf (addTransaction doc now nowDate) = idsOf doc ++ [toString now] := by
  simp [idsOf, addTransaction]

lemma idsOf_smartAdd (doc : S1aFormState) (res : ParseResult) (now : Nat) (nowDate : String) :
    idsOf (handleSmartVoiceAdd doc res now nowDate) = idsOf doc ++ [toString now] := by
  simp [idsOf, handleSmartVoiceAdd, smartNewTrans]

lemma map_id_filter (l : List Transaction) (i : String) :
    (l.filter (fun t => t.id != i)).map (fun t => t.id)
      = (l.map (fun t => t.id)).filter (fun s => s != i) := by
  induction l with
  | nil => rfl
  | cons t ts ih =>
    cases hb : t.id != i with
    | false => simp [List.filter_cons, hb, ih]
    | true => simp [List.filter_cons, hb, ih]

lemma idsOf_remove (doc : S1aFormState) (id : String) :
    idsOf (removeTransaction doc id) = (idsOf doc).filter (fun s => s != id) := by
  simp only [idsOf, removeTransaction]
  exact map_id_filter doc.transactions id

lemma setField_id (t : Transaction) (f : TransField) (v : f.valType) :
    (setField t f v).id = t.id := by
  cases f <;> rfl

lemma idsOf_update (doc : S1aFormState) (id : String) (f : TransField) (v : f.valType) :
    idsOf (updateTransaction doc id f v) = idsOf doc := by
  simp only [idsOf, updateTransaction, List.map_map]
  apply List.map_congr_left
  intro t _
  by_cases h : t.id == id
  · simp [Function.comp, h, setField_id]
  · simp [Function.comp, h]

lemma nodup_append_singleton {α : Type} {l : List α} {x : α}
    (h : l.Nodup) (hx : x ∉ l) : (l ++ [x]).Nodup := by
  rw [List.nodup_append]
  refine ⟨h, List.nodup_singleton x, ?_⟩
  intro a ha hax
  rw [List.mem_singleton] at hax
  subst hax
  exact hx ha

lemma nodup_run : ∀ (es : List Event) (doc : S1aFormState),
    (idsOf doc).Nodup → freshTrace doc es = true → (idsOf (run doc es)).Nodup := by
  intro es
  induction es with
  | nil => intro doc h _; exact h
  | cons e es ih =>
    intro doc h hf
    rw [run_cons]
    cases e with
    | add now nowDate =>
      simp only [freshTrace, Bool.and_eq_true, decide_eq_true_eq] at hf
      refine ih _ ?_ hf.2
      rw [step, idsOf_add]
      exact nodup_append_singleton h hf.1
    | smartAdd res now nowDate =>
      simp only [freshTrace, Bool.and_eq_true, decide_eq_true_eq] at hf
      refine ih _ ?_ hf.2
      rw [step, idsOf_smartAdd]
      exact nodup_append_singleton h hf.1
    | remove id =>
      simp only [freshTrace, Bool.true_and] at hf
      refine ih _ ?_ hf
      rw [step, idsOf_remove]
      exact h.filter _
    | update id f v =>
      simp only [freshTrace, Bool.true_and] at hf
      refine ih _ ?_ hf
      rw [step, idsOf_update]
      exact h

lemma ids_run_sublist : ∀ (es : List Event) (doc : S1aFormState),
    (idsOf (run doc es)).Sublist (idsOf doc ++ addedIds es) := by
  intro es
  induction es with
  | nil =>
    intro doc
    simp only [run, List.foldl_nil, addedIds, List.append_nil]
    exact List.Sublist.refl _
  | cons e es ih =>
    intro doc
    rw [run_cons]
    cases e with
    | add now nowDate =>
      have h := ih (step doc (Event.add now nowDate))
      rw [step, idsOf_add, List.append_assoc] at h
      exact h
    | smartAdd res now nowDate =>
      have h := ih (step doc (Event.smartAdd res now nowDate))
      rw [step, idsOf_smartAdd, List.append_assoc] at h
      exact h
    | remove id =>
      have h := ih (step doc (Event.remove id))
      refine h.trans ?_
      rw [step, idsOf_remove]
      exact List.Sublist.append (List.filter_sublist _) (List.Sublist.refl _)
    | update id f v =>
      have h := ih (step doc (Event.update id f v))
      rw [step, idsOf_update] at h
      exact h

/-! ### Lemmas about the persistence-level system -/

lemma runSys_cons (s : Sys) (e : SysEvent) (es : List SysEvent) :
    runSys s (e :: es) = runSys (sysStep s e) es := rfl

lemma runSys_append (s : Sys) (l₁ l₂ : List SysEvent) :
    runSys s (l₁ ++ l₂) = runSys (runSys s l₁) l₂ :=
  List.foldl_append sysStep s l₁ l₂

lemma no_save_aux : ∀ (tr : List SysEvent) (s : Sys), s.isLoaded = false →
    (∀ d, DbOp.save d ∉ s.dbLog) → SysEvent.loadResolved ∉ tr →
    ∀ doc, DbOp.save doc ∉ (runSys s tr).dbLog := by
  intro tr
  induction tr with
  | nil => intro s _ h _ doc; exact h doc
  | cons e tr ih =>
    intro s hl hs hni doc
    have hni' : SysEvent.loadResolved ∉ tr := fun hm => hni (List.mem_cons_of_mem _ hm)
    rw [runSys_cons]
    cases e with
    | loadResolved => exact absurd (List.mem_cons_self _ _) hni
    | mutate ev =>
      refine ih _ ?_ ?_ hni' doc
      · simp [sysStep, hl]
      · intro d
        simp only [sysStep, hl, Bool.false_eq_true, if_false]
        exact hs d
    | reset =>
      refine ih _ ?_ ?_ hni' doc
      · simp [sysStep, hl]
      · intro d
        simp only [sysStep, hl, Bool.false_eq_true, if_false, List.mem_append,
          List.mem_singleton]
        rintro (hd | hd)
        · exact hs d hd
        · exact DbOp.noConfusion hd

lemma runSys_mutates (tr : List Event) : ∀ s : Sys, s.isLoaded = false →
    runSys s (tr.map SysEvent.mutate) = { s with data := run s.data tr } := by
  induction tr with
  | nil => intro s _; rfl
  | cons e tr ih =>
    intro s h
    rw [List.map_cons, runSys_cons]
    have hstep : sysStep s (SysEvent.mutate e) = { s with data := step s.data e } := by
      simp [sysStep, h]
    rw [hstep, ih { s with data := step s.data e } h]
    rfl

lemma mutates_isLoaded (tr : List Event) : ∀ s : Sys,
    (runSys s (tr.map SysEvent.mutate)).isLoaded = s.isLoaded := by
  induction tr with
  | nil => intro s; rfl
  | cons e tr ih =>
    intro s
    rw [List.map_cons, runSys_cons, ih]
    cases h : s.isLoaded <;> simp [sysStep, h, doSave]

/-! ### The claims -/

/-- C1, counterexample: the claim as stated is false.  Ids are generated from
`Date.now().toString()`, so two `addTransaction` calls in the same
millisecond (clock value 5 twice here) produce duplicate ids starting from
the default sample document. -/
theorem unique_ids_counterexample :
    ¬ (idsOf (run SAMPLE_DATA
        [Event.add 5 "03/10/2023", Event.add 5 "03/10/2023"])).Nodup := by
  decide

/-- C1 (amended): starting from the default sample document, for every
sequence of add/voice-add/remove/update calls in which each add fires at a
clock value whose string form is not an id already in the document (in
particular no two adds share a millisecond), the transaction ids remain
pairwise unique; and, unconditionally, the surviving ids form an
order-preserving sublist of the original ids followed by the generated ids in
insertion order. -/
theorem unique_ids_and_order (es : List Event) :
    (freshTrace SAMPLE_DATA es = true → (idsOf (run SAMPLE_DATA es)).Nodup)
    ∧ (idsOf (run SAMPLE_DATA es)).Sublist (idsOf SAMPLE_DATA ++ addedIds es) :=
  ⟨fun hf => nodup_run es SAMPLE_DATA (by decide) hf, ids_run_sublist es SAMPLE_DATA⟩

/-- C1 witness: a concrete fresh trace (one add at clock 5, one removal)
keeps the ids pairwise unique. -/
theorem unique_ids_and_order_witness :
    freshTrace SAMPLE_DATA [Event.add 5 "03/10/2023", Event.remove "1"] = true
    ∧ (idsOf (run SAMPLE_DATA [Event.add 5 "03/10/2023", Event.remove "1"])).Nodup :=
  ⟨by decide,
   (unique_ids_and_order [Event.add 5 "03/10/2023", Event.remove "1"]).1 (by decide)⟩

/-- C2: updating an amount through the input path stores a non-negative
integer — `parseAmountInput` always yields a natural number, the update
writes exactly that value into the matching transaction's amount field, and
the two cited inputs evaluate as the spec says. -/
theorem amount_update_sanitized (v : String) (doc : S1aFormState) (id : String) :
    0 ≤ ((parseAmountInput v : Nat) : Int)
    ∧ (updateTransaction doc id TransField.amount ((parseAmountInput v : Nat) : Int)).transactions
        = doc.transactions.map
            (fun t => if t.id = id
              then { t with amount := ((parseAmountInput v : Nat) : Int) } else t)
    ∧ parseAmountInput "1.234.567" = 1234567
    ∧ parseAmountInput "abc" = 0 := by
  refine ⟨Int.natCast_nonneg _, ?_, by decide, rfl⟩
  simp only [updateTransaction]
  apply List.map_congr_left
  intro t _
  by_cases h : t.id = id
  · simp [h, setField]
  · simp [h]

/-- C3: a structured parse carrying only `amount = 5000000` still makes the
voice-add pipeline append exactly one transaction dated today with the
non-empty placeholder description and amount exactly 5000000; and a parse
with every field absent appends a transaction built entirely from the
defaults (today's date, the placeholder, amount 0). -/
theorem smart_voice_defaults (doc : S1aFormState) (now : Nat) (nowDate : String) :
    (captureRequest (idleState doc) CaptureTarget.newTrans
        (Except.ok { date := none, description := none, amount := some 5000000 })
        "audio" now nowDate).data.transactions
      = doc.transactions
        ++ [{ id := toString now, date := nowDate, description := "Giao dịch mới",
              amount := 5000000 }]
    ∧ "Giao dịch mới" ≠ ""
    ∧ (handleSmartVoiceAdd doc { date := none, description := none, amount := none }
          now nowDate).transactions
      = doc.transactions
        ++ [{ id := toString now, date := nowDate, description := "Giao dịch mới",
              amount := 0 }] :=
  ⟨rfl, by decide, rfl⟩

/-- C4: a capture request for a target that is already busy (its
`isProcessing` flag set, read exactly as the component props read it) is a
no-op: the whole application state, in particular the ledger document, is
unchanged. -/
theorem busy_capture_rejected (st : AppState) (tgt : CaptureTarget) (p : tgt.payload)
    (audio : String) (now : Nat) (nowDate : String) (h : isBusy st tgt = true) :
    captureRequest st tgt p audio now nowDate = st := by
  unfold captureRequest
  simp [h]

/-- C4 witness: a state whose `name` field is busy rejects a capture request
for that field. -/
theorem busy_capture_rejected_witness :
    isBusy busySt (CaptureTarget.infoField InfoField.name) = true
    ∧ captureRequest busySt (CaptureTarget.infoField InfoField.name)
        (Except.ok "Trần Thị B") "a" 7 "08/10/2023" = busySt :=
  ⟨by decide,
   busy_capture_rejected busySt (CaptureTarget.infoField InfoField.name)
     (Except.ok "Trần Thị B") "a" 7 "08/10/2023" (by decide)⟩

/-- C5: before the startup load resolves no save is ever issued — any trace
without the load event has an empty save log; and when the load of a stored
document resolves after any batch of early edits, the first issued save is of
that stored document, which has already replaced the in-memory one. -/
theorem no_save_before_load (stored : Option S1aFormState) (tr : List SysEvent)
    (hno : SysEvent.loadResolved ∉ tr) (doc d : S1aFormState) (tr' : List Event) :
    DbOp.save doc ∉ (runSys (initSys stored) tr).dbLog
    ∧ (runSys (initSys (some d)) (tr'.map SysEvent.mutate ++ [SysEvent.loadResolved])).dbLog
        = [DbOp.save d]
    ∧ (runSys (initSys (some d)) (tr'.map SysEvent.mutate ++ [SysEvent.loadResolved])).data
        = d := by
  refine ⟨no_save_aux tr (initSys stored) rfl (by intro d'; simp [initSys]) hno doc, ?_, ?_⟩
  all_goals
    rw [runSys_append, runSys_mutates tr' (initSys (some d)) rfl]
    simp [runSys, sysStep, initSys, doSave]

/-- C5 witness: one early mutation issues no save. -/
theorem no_save_before_load_witness :
    SysEvent.loadResolved ∉ [SysEvent.mutate (Event.add 5 "03/10/2023")]
    ∧ DbOp.save SAMPLE_DATA
        ∉ (runSys (initSys none) [SysEvent.mutate (Event.add 5 "03/10/2023")]).dbLog :=
  ⟨by simp,
   (no_save_before_load none [SysEvent.mutate (Event.add 5 "03/10/2023")] (by simp)
      SAMPLE_DATA SAMPLE_DATA []).1⟩

/-- C6: after startup load and any batch of edits, a confirmed reset replaces
the in-memory document with the default sample, issues `clear()` to the
store, and leaves the store holding exactly the default sample — so a
subsequent `load()` returns the default sample document, not any prior
state. -/
theorem reset_restores_sample (stored : Option S1aFormState) (tr : List Event) :
    (afterReset stored tr).data = SAMPLE_DATA
    ∧ (afterReset stored tr).db = some SAMPLE_DATA
    ∧ DbOp.clear ∈ (afterReset stored tr).dbLog := by
  have h1 : afterReset stored tr
      = sysStep (runSys (sysStep (initSys stored) SysEvent.loadResolved)
          (tr.map SysEvent.mutate)) SysEvent.reset := by
    unfold afterReset
    rw [runSys_cons, runSys_append]
    rfl
  have hL : (runSys (sysStep (initSys stored) SysEvent.loadResolved)
      (tr.map SysEvent.mutate)).isLoaded = true := by
    rw [mutates_isLoaded]
    rfl
  rw [h1]
  generalize hg : runSys (sysStep (initSys stored) SysEvent.loadResolved)
    (tr.map SysEvent.mutate) = s₂ at hL ⊢
  simp [sysStep, hL, doSave, List.mem_append]

/-- C7: `handleError` classifies the failure by message: the missing
credential sets the AI-unavailable flag and shows the credential-specific
notification; any other failure leaves the flag alone and shows the generic
one; both schedule the notification to clear after 3000 milliseconds, the
clear callback removes it, and the two notifications are distinct. -/
theorem error_classified (st : AppState) (msg : String) :
    (msg = "API_KEY_MISSING" →
      (handleError st msg).1.apiKeyError = true
      ∧ (handleError st msg).1.aiFeedback = some errCredentialMsg)
    ∧ (msg ≠ "API_KEY_MISSING" →
      (handleError st msg).1.apiKeyError = st.apiKeyError
      ∧ (handleError st msg).1.aiFeedback = some errGenericMsg)
    ∧ (handleError st msg).2 = 3000
    ∧ (clearFeedback (handleError st msg).1).aiFeedback = none
    ∧ errCredentialMsg ≠ errGenericMsg := by
  refine ⟨fun h => ?_, fun h => ?_, ?_, ?_, by decide⟩
  · simp [handleError, h]
  · simp [handleError, h]
  · by_cases h : msg = "API_KEY_MISSING" <;> simp [handleError, h]
  · by_cases h : msg = "API_KEY_MISSING" <;> simp [handleError, clearFeedback, h]

/-- C7 witness: a generic failure shows the generic notification and leaves
the availability flag (false in the idle state) untouched. -/
theorem error_classified_witness :
    (handleError (idleState SAMPLE_DATA) "boom").1.apiKeyError = false
    ∧ (handleError (idleState SAMPLE_DATA) "boom").1.aiFeedback = some errGenericMsg
    ∧ "boom" ≠ "API_KEY_MISSING" :=
  ⟨((error_classified (idleState SAMPLE_DATA) "boom").2.1 (by decide)).1,
   ((error_classified (idleState SAMPLE_DATA) "boom").2.1 (by decide)).2,
   by decide⟩

/-- C8: `removeTransaction id` leaves the taxpayer info unchanged, keeps
exactly the transactions whose id differs (in order), and is a no-op when no
transaction has that id. -/
theorem remove_exact (doc : S1aFormState) (id : String) :
    (removeTransaction doc id).info = doc.info
    ∧ (removeTransaction doc id).transactions
        = doc.transactions.filter (fun t => t.id ≠ id)
    ∧ ((∀ t ∈ doc.transactions, t.id ≠ id) → removeTransaction doc id = doc) := by
  refine ⟨rfl, ?_, ?_⟩
  · simp only [removeTransaction]
    apply List.filter_congr
    intro t _
    by_cases h : t.id = id <;> simp [h]
  · intro h
    have hf : doc.transactions.filter (fun t => t.id != id) = doc.transactions := by
      rw [List.filter_eq_self]
      intro t ht
      simpa [bne_iff_ne] using h t ht
    simp only [removeTransaction, hf]

/-- C8 witness: removing an absent id from the default sample document is a
no-op. -/
theorem remove_exact_witness :
    (∀ t ∈ SAMPLE_DATA.transactions, t.id ≠ "99")
    ∧ removeTransaction SAMPLE_DATA "99" = SAMPLE_DATA :=
  ⟨by decide, (remove_exact SAMPLE_DATA "99").2.2 (by decide)⟩

/-- C9: the spreadsheet renderer is deterministic — its output depends only
on the document, not on the ambient clock or any randomness, so two calls on
an unchanged document are byte-identical. -/
theorem excel_deterministic (doc : S1aFormState) (t₁ r₁ t₂ r₂ : Nat) :
    generateExcelBlob doc t₁ r₁ = generateExcelBlob doc t₂ r₂ := rfl

/-- C10: the amount display/parse pair is a round trip on every non-negative
integer, with `formatAmountInput 0 = ""` and `parseAmountInput "" = 0`. -/
theorem amount_roundtrip (a : Nat) :
    parseAmountInput (formatAmountInput a) = a
    ∧ formatAmountInput 0 = ""
    ∧ parseAmountInput "" = 0 := by
  refine ⟨?_, rfl, rfl⟩
  by_cases h : a = 0
  · subst h; rfl
  · unfold formatAmountInput parseAmountInput
    rw [if_neg h]
    show parseDigits (((sepRev (digitChars a).reverse 3).reverse).filter Char.isDigit) = a
    rw [List.filter_reverse, filter_sepRev, List.filter_reverse, List.reverse_reverse,
      filter_digitChars, parseDigits_digitChars]

end DoanhThu
